import Mathlib

/-!
Shallow embedding of the "life lessons" Express/MongoDB server
(index.js and its near-duplicate revisions part_000..part_002).

Modelling conventions:
* MongoDB ObjectIds are modelled by an increasing `Nat` counter (`Store.nextId`);
  auto-generated `_id`s grow with insertion time, so `sort \x7b _id: -1 \x7d` is
  "newest first" and is modelled by reversing the insertion-ordered list.
* A JSON field that may be absent or null is an `Option`; the JS falsy-default
  idiom `x || d` on strings is `orDefault` (absent, null and "" are falsy).
* `updateOne` updates the first document matching the filter (`updateFirst`);
  `deleteOne` removes the first match (`removeFirst`); `$push` appends at the
  end of the array; `$inc` on an absent numeric field creates it with the
  increment value (hence `shares : Option Int` and `Option.getD 0`).
* Handlers are pure functions from a `Store` and the request data to the new
  `Store` and a response value; HTTP status codes become response constructors.
-/

namespace LifeLessons

/-- JS `x || d` for an optional string: absent/null and the empty string are
falsy and fall back to the default. -/
def orDefault (v : Option String) (d : String) : String :=
  match v with
  | none => d
  | some s => if s = "" then d else s

/-- JS `x || d` for an optional number: absent/null and 0 are falsy. -/
def jsOrInt (v : Option Int) (d : Int) : Int :=
  match v with
  | none => d
  | some n => if n = 0 then d else n

/-- A reply document (`newReply` in the reply handlers): fresh id, the caller
identity from the verified token, the text, and a timestamp. -/
structure Reply where
  rid : Nat
  user : Option String
  text : String
  createdAt : Nat
deriving Repr, DecidableEq

/-- A comment document (`newComment` in the comment handlers). -/
structure Comment where
  cid : Nat
  user : Option String
  text : String
  likes : Int
  replies : List Reply
  createdAt : Nat
deriving Repr, DecidableEq

/-- A lesson document as persisted in the `lessons` collection.  `shares` is an
`Option` because the index.js revision of POST /lessons never initializes it
(the field is simply absent until the first share, or whatever the creation
request body carried). -/
structure Lesson where
  lid : Nat
  title : Option String := none
  content : Option String := none
  image : Option String := none
  author : Option String := none
  authorAvatar : Option String := none
  likes : Int := 0
  views : Int := 0
  saves : Int := 0
  shares : Option Int := none
  comments : List Comment := []
  createdAt : Nat := 0
  updatedAt : Option Nat := none
deriving Repr, DecidableEq

/-- A contributor document in the `contributors` collection. -/
structure Contributor where
  name : String
  avatar : String
  lessons : Int
  createdAt : Nat
deriving Repr, DecidableEq

/-- The database: both collections in insertion order, plus the ObjectId
source. -/
structure Store where
  lessons : List Lesson := []
  contributors : List Contributor := []
  nextId : Nat := 0
deriving Repr, DecidableEq

def emptyStore : Store := {}

/-- `updateOne`: apply `g` to the first element matching the filter `p`. -/
def updateFirst {α : Type} (p : α → Bool) (g : α → α) : List α → List α
  | [] => []
  | x :: xs => if p x then g x :: xs else x :: updateFirst p g xs

/-- `deleteOne`: remove the first element matching the filter `p`. -/
def removeFirst {α : Type} (p : α → Bool) : List α → List α
  | [] => []
  | x :: xs => if p x then xs else x :: removeFirst p xs

/-- `findOne \x7b _id \x7d` on the lessons collection. -/
def findLesson (s : Store) (i : Nat) : Option Lesson :=
  s.lessons.find? (fun l => l.lid == i)

/-- `find().sort(\x7b _id: -1 \x7d)`: newest first. -/
def byNewest (s : Store) : List Lesson := s.lessons.reverse

/-- The store's `insertOne` acknowledgement (new identifier). -/
structure InsertAck where
  acknowledged : Bool
  insertedId : Nat
deriving Repr, DecidableEq

/-- The request body of POST /lessons.  Clients may also send counter and
comment fields; the handlers overwrite most of them. -/
structure LessonReq where
  title : Option String := none
  content : Option String := none
  image : Option String := none
  author : Option String := none
  authorAvatar : Option String := none
  likes : Option Int := none
  views : Option Int := none
  saves : Option Int := none
  shares : Option Int := none
  comments : List Comment := []
deriving Repr, DecidableEq

/-- POST /lessons, index.js revision (src/index.js lines 64-74): overwrites
`likes`, `views`, `saves`, `comments`, `createdAt` on the request body and
inserts it.  `shares` is NOT overwritten: whatever the body carried (usually
nothing) is persisted as-is. -/
def postLesson (s : Store) (r : LessonReq) (now : Nat) : Store × InsertAck :=
  let doc : Lesson :=
    { lid := s.nextId
      title := r.title, content := r.content, image := r.image
      author := r.author, authorAvatar := r.authorAvatar
      likes := 0, views := 0, saves := 0
      shares := r.shares
      comments := []
      createdAt := now, updatedAt := none }
  ({ s with lessons := s.lessons ++ [doc], nextId := s.nextId + 1 },
   { acknowledged := true, insertedId := s.nextId })

/-- The contributor upsert performed by the part_002 POST /lessons:
`updateOne(\x7b name \x7d, \x7b $setOnInsert: ..., $inc: \x7b lessons: 1 \x7d \x7d, \x7b upsert: true \x7d)`.
On a match, `$inc` bumps the count; on insert, `$setOnInsert` fills the fields
and `$inc` creates `lessons = 1`. -/
def upsertContributorBy (name avatar : String) (now : Nat) :
    List Contributor → List Contributor
  | [] => [{ name := name, avatar := avatar, lessons := 1, createdAt := now }]
  | c :: cs =>
    if c.name = name then { c with lessons := c.lessons + 1 } :: cs
    else c :: upsertContributorBy name avatar now cs

/-- POST /lessons, part_002 revision (src/unnamed/part_002 lines 67-100):
also zeroes `shares`, fills author/avatar defaults, and upserts the
contributor (the `if (lessonData.author)` guard is always true after the
default is applied). -/
def postLesson2 (s : Store) (r : LessonReq) (now : Nat) : Store × InsertAck :=
  let author := orDefault r.author "Anonymous"
  let avatar := orDefault r.authorAvatar "/images/default.jpg"
  let doc : Lesson :=
    { lid := s.nextId
      title := r.title, content := r.content, image := r.image
      author := some author, authorAvatar := some avatar
      likes := 0, views := 0, saves := 0
      shares := some 0
      comments := []
      createdAt := now, updatedAt := none }
  ({ s with lessons := s.lessons ++ [doc]
            contributors := upsertContributorBy author avatar now s.contributors
            nextId := s.nextId + 1 },
   { acknowledged := true, insertedId := s.nextId })

/-- Leading decimal digits of a character list, `none` when there are none
(the NaN case of `parseInt`). -/
def leadingNat (cs : List Char) : Option Nat :=
  let ds := cs.takeWhile Char.isDigit
  if ds.isEmpty then none
  else some (ds.foldl (fun a c => a * 10 + (c.toNat - 48)) 0)

/-- JS `parseInt(x)` for the base-10 cases that occur here: skip leading
whitespace, optional sign, then the longest digit run; no digits (including an
absent argument, `parseInt(undefined)`) gives NaN, modelled as `none`.
(The `0x` hexadecimal auto-detection of `parseInt` is not modelled; no claim
mentions hexadecimal limits.) -/
def jsParseInt (s : Option String) : Option Int :=
  match s with
  | none => none
  | some str =>
    let cs := str.toList.dropWhile
      (fun c => c = ' ' || c = '\t' || c = '\n' || c = '\r')
    match cs with
    | '-' :: rest => (leadingNat rest).map (fun n => -(n : Int))
    | '+' :: rest => (leadingNat rest).map (fun n => (n : Int))
    | rest => (leadingNat rest).map (fun n => (n : Int))

/-- `cursor.limit(k)` in MongoDB: 0 means no limit; a negative value behaves
like the positive one but closes the cursor after a single batch, so at most
`|k|` documents come back (all corpora here fit in one batch). -/
def mongoLimit (k : Int) (ls : List Lesson) : List Lesson :=
  if k = 0 then ls else ls.take k.natAbs

/-- GET /lessons (src/index.js lines 76-87): sort newest first, and apply the
parsed `limit` query parameter unless it is NaN. -/
def getLessons (s : Store) (limitQ : Option String) : List Lesson :=
  match jsParseInt limitQ with
  | none => byNewest s
  | some k => mongoLimit k (byNewest s)

/-- Response of the index.js GET /lessons/:id, which sends whatever `findOne`
returned: the document, or a 200 with a null body when there was no match. -/
inductive FindOneResp where
  | body (l : Lesson)
  | nullBody
deriving Repr, DecidableEq

/-- GET /lessons/:id, index.js revision (lines 90-94): no not-found check. -/
def getLessonIdx (s : Store) (i : Nat) : FindOneResp :=
  match findLesson s i with
  | some l => FindOneResp.body l
  | none => FindOneResp.nullBody

/-- `countDocuments(\x7b author \x7d)`. -/
def countLessonsBy (s : Store) (a : String) : Nat :=
  (s.lessons.filter (fun l => l.author == some a)).length

/-- Response of the part_002 GET /lessons/:id: the enriched document with the
transient `authorLessonCount`, a 404, or (never produced by this revision) a
200 with a null body. -/
inductive GetResp where
  | ok (l : Lesson) (authorLessonCount : Nat)
  | okNull
  | notFound
deriving Repr, DecidableEq

/-- GET /lessons/:id, part_002 revision (lines 146-164): 404 when no match,
otherwise author/avatar defaults plus the author's lesson count. -/
def getLesson2 (s : Store) (i : Nat) : GetResp :=
  match findLesson s i with
  | none => GetResp.notFound
  | some l =>
    let author := orDefault l.author "Anonymous"
    let avatar := orDefault l.authorAvatar "/images/default.jpg"
    GetResp.ok { l with author := some author, authorAvatar := some avatar }
      (countLessonsBy s author)

/-- The `\x7b success: true \x7d` acknowledgement of the counter routes; it carries
no document. -/
structure Ack where
  success : Bool
deriving Repr, DecidableEq

/-- Common shape of the four counter routes:
`updateOne(\x7b _id \x7d, \x7b $inc: ... \x7d)` then `res.send(\x7b success: true \x7d)`. -/
def bumpLesson (s : Store) (i : Nat) (f : Lesson → Lesson) : Store × Ack :=
  ({ s with lessons := updateFirst (fun l => l.lid == i) f s.lessons },
   { success := true })

/-- POST /lessons/:id/view. -/
def viewLesson (s : Store) (i : Nat) : Store × Ack :=
  bumpLesson s i (fun l => { l with views := l.views + 1 })

/-- POST /lessons/:id/like. -/
def likeLesson (s : Store) (i : Nat) : Store × Ack :=
  bumpLesson s i (fun l => { l with likes := l.likes + 1 })

/-- POST /lessons/:id/save. -/
def saveLesson (s : Store) (i : Nat) : Store × Ack :=
  bumpLesson s i (fun l => { l with saves := l.saves + 1 })

/-- POST /lessons/:id/share: `$inc` on a possibly absent field creates it with
value 1. -/
def shareLesson (s : Store) (i : Nat) : Store × Ack :=
  bumpLesson s i (fun l => { l with shares := some (l.shares.getD 0 + 1) })

/-- JS `if (!text)`: an absent body field or the empty string is falsy. -/
def textFalsy (t : Option String) : Bool :=
  match t with
  | none => true
  | some s => s = ""

/-- Response of POST /lessons/:id/comments: 400, or the new comment itself
(not the whole lesson). -/
inductive CommentResp where
  | badRequest (msg : String)
  | created (c : Comment)
deriving Repr, DecidableEq

/-- POST /lessons/:id/comments (src/index.js lines 166-188): reject falsy
text with 400; otherwise build the comment with a fresh id, zero likes, empty
replies and the current timestamp, `$push` it, and return the comment. -/
def addComment (s : Store) (lessonId : Nat) (text user : Option String)
    (now : Nat) : Store × CommentResp :=
  if textFalsy text then (s, CommentResp.badRequest "Comment text required")
  else
    let c : Comment :=
      { cid := s.nextId, user := user, text := text.getD "", likes := 0
        replies := [], createdAt := now }
    ({ s with nextId := s.nextId + 1
              lessons := updateFirst (fun l => l.lid == lessonId)
                (fun l => { l with comments := l.comments ++ [c] })
                s.lessons },
     CommentResp.created c)

/-- Response of POST /lessons/:id/comments/:commentId/replies. -/
inductive ReplyResp where
  | badRequest (msg : String)
  | created (r : Reply)
deriving Repr, DecidableEq

/-- `$push: \x7b "comments.$.replies": r \x7d`: the positional operator pushes into
the first array element matching the filter's `comments._id` clause. -/
def pushReply (cid : Nat) (r : Reply) : List Comment → List Comment :=
  updateFirst (fun c => c.cid == cid)
    (fun c => { c with replies := c.replies ++ [r] })

/-- POST /lessons/:id/comments/:commentId/replies (src/index.js lines
191-215): one `updateOne` whose filter names both the lesson and the comment,
pushing into that comment's replies. -/
def addReply (s : Store) (i cid : Nat) (text user : Option String)
    (now : Nat) : Store × ReplyResp :=
  if textFalsy text then (s, ReplyResp.badRequest "Reply text required")
  else
    let r : Reply := { rid := s.nextId, user := user, text := text.getD ""
                       createdAt := now }
    ({ s with nextId := s.nextId + 1
              lessons := updateFirst
                (fun l => l.lid == i && l.comments.any (fun c => c.cid == cid))
                (fun l => { l with comments := pushReply cid r l.comments })
                s.lessons },
     ReplyResp.created r)

/-- `$inc: \x7b "comments.$.likes": 1 \x7d` on the first matching comment. -/
def bumpCommentLikes (cid : Nat) : List Comment → List Comment :=
  updateFirst (fun c => c.cid == cid) (fun c => { c with likes := c.likes + 1 })

/-- POST /lessons/:id/comments/:commentId/like. -/
def likeComment (s : Store) (i cid : Nat) : Store × Ack :=
  let p := fun (l : Lesson) => l.lid == i && l.comments.any (fun c => c.cid == cid)
  let f := fun (l : Lesson) => { l with comments := bumpCommentLikes cid l.comments }
  ({ s with lessons := updateFirst p f s.lessons }, { success := true })

/-- Response of PUT/DELETE /lessons/:id. -/
inductive UpdateResp where
  | notFound
  | updated
deriving Repr, DecidableEq

/-- PUT /lessons/:id (part_002 lines 338-366).  The handler destructures
`title`, `content`, `image` from the body and `$set`s all three
unconditionally; with the driver's default `ignoreUndefined: false` an omitted
body field is serialized as null, so every one of the three stored fields is
replaced by the request's value (null when omitted), plus a fresh
`updatedAt`.  404 when `matchedCount` is 0. -/
def putLesson (s : Store) (i : Nat) (title content image : Option String)
    (now : Nat) : Store × UpdateResp :=
  if s.lessons.any (fun l => l.lid == i) then
    let f := fun (l : Lesson) =>
      { l with title := title, content := content, image := image
               updatedAt := some now }
    ({ s with lessons := updateFirst (fun l => l.lid == i) f s.lessons },
     UpdateResp.updated)
  else (s, UpdateResp.notFound)

/-- DELETE /lessons/:id (part_002 lines 369-388): 404 when `deletedCount`
is 0. -/
def deleteLesson (s : Store) (i : Nat) : Store × UpdateResp :=
  if s.lessons.any (fun l => l.lid == i) then
    ({ s with lessons := removeFirst (fun l => l.lid == i) s.lessons },
     UpdateResp.updated)
  else (s, UpdateResp.notFound)

/-- The request body of POST /contributors. -/
structure ContributorReq where
  name : Option String := none
  lessons : Option Int := none
  avatar : Option String := none
deriving Repr, DecidableEq

/-- POST /contributors (part_002 lines 220-229): fill falsy defaults and
insert the body as given — the caller-supplied `lessons` count is persisted
untouched whenever it is non-zero. -/
def postContributor2 (s : Store) (r : ContributorReq) (now : Nat) :
    Store × InsertAck :=
  let c : Contributor :=
    { name := orDefault r.name "Anonymous"
      lessons := jsOrInt r.lessons 0
      avatar := orDefault r.avatar "/images/default.jpg"
      createdAt := now }
  ({ s with contributors := s.contributors ++ [c], nextId := s.nextId + 1 },
   { acknowledged := true, insertedId := s.nextId })

/-- JS `Math.round`: nearest integer, halves toward positive infinity. -/
def jsMathRound (x : ℚ) : Int := Int.floor (x + 1 / 2)

/-- `Math.round((FIXED_BDT_PRICE / USD_RATE) * 100)` with the hard-coded
constants 1500 and 127 (part_002 lines 113-117).  The double-precision
evaluation in JS rounds to the same integer, since the exact value
150000/127 ≈ 1181.102 is far from a rounding boundary. -/
def checkoutAmount : Int := jsMathRound ((1500 : ℚ) / 127 * 100)

/-- The request body of POST /create-checkout-session. -/
structure CheckoutReq where
  lessonId : Option String := none
  lessonTitle : Option String := none
  senderEmail : Option String := none
deriving Repr, DecidableEq

/-- What the handler passes to `stripe.checkout.sessions.create` (the
env-templated success/cancel redirect URLs are configuration, not modelled). -/
structure SessionParams where
  currency : String
  unitAmount : Int
  productName : String
  quantity : Nat
  mode : String
  customerEmail : Option String
  metadataLessonId : Option String
deriving Repr, DecidableEq

/-- The session-creation parameters built by POST /create-checkout-session
(part_002 lines 113-143). -/
def checkoutSessionParams (r : CheckoutReq) : SessionParams :=
  { currency := "usd"
    unitAmount := checkoutAmount
    productName := orDefault r.lessonTitle "Premium Lesson Access"
    quantity := 1
    mode := "payment"
    customerEmail := r.senderEmail
    metadataLessonId := r.lessonId }

/-- POST /create-checkout-session: create the hosted session with the payment
provider (an external collaborator, passed as a function returning the
session's redirect URL) and respond with that URL. -/
def createCheckoutSession (stripeCreate : SessionParams → String)
    (r : CheckoutReq) : String :=
  stripeCreate (checkoutSessionParams r)

/-- One mutating request of the HTTP surface. -/
inductive Op where
  | create (r : LessonReq) (now : Nat)
  | view (i : Nat)
  | like (i : Nat)
  | save (i : Nat)
  | share (i : Nat)
  | comment (i : Nat) (text user : Option String) (now : Nat)
  | reply (i cid : Nat) (text user : Option String) (now : Nat)
  | commentLike (i cid : Nat)
  | update (i : Nat) (title content image : Option String) (now : Nat)
  | remove (i : Nat)
  | contributor (r : ContributorReq) (now : Nat)
deriving Repr, DecidableEq

/-- The state transition of one request, part_002 revision (the revision whose
creation initializes all four counters). -/
def step2 (s : Store) : Op → Store
  | Op.create r now => (postLesson2 s r now).1
  | Op.view i => (viewLesson s i).1
  | Op.like i => (likeLesson s i).1
  | Op.save i => (saveLesson s i).1
  | Op.share i => (shareLesson s i).1
  | Op.comment i t u now => (addComment s i t u now).1
  | Op.reply i cid t u now => (addReply s i cid t u now).1
  | Op.commentLike i cid => (likeComment s i cid).1
  | Op.update i t c im now => (putLesson s i t c im now).1
  | Op.remove i => (deleteLesson s i).1
  | Op.contributor r now => (postContributor2 s r now).1

/-- All counters of one lesson document are nonnegative. -/
def lessonCountersOK (l : Lesson) : Prop :=
  0 ≤ l.likes ∧ 0 ≤ l.views ∧ 0 ≤ l.saves ∧ 0 ≤ l.shares.getD 0 ∧
    ∀ c ∈ l.comments, 0 ≤ c.likes

/-- All counters of all lesson documents in the store are nonnegative. -/
def countersNonneg (s : Store) : Prop :=
  ∀ l ∈ s.lessons, lessonCountersOK l

/-- Stores reachable from the empty store by requests of the part_002
surface. -/
inductive Reachable2 : Store → Prop where
  | init : Reachable2 emptyStore
  | step {s : Store} (op : Op) : Reachable2 s → Reachable2 (step2 s op)

/-- One request changes each counter of a given lesson by zero or exactly one,
comment likes compared position by position (comments are only ever appended,
so positions are stable). -/
def lessonStep (l l' : Lesson) : Prop :=
  (l'.likes = l.likes ∨ l'.likes = l.likes + 1) ∧
  (l'.views = l.views ∨ l'.views = l.views + 1) ∧
  (l'.saves = l.saves ∨ l'.saves = l.saves + 1) ∧
  (l'.shares.getD 0 = l.shares.getD 0 ∨
    l'.shares.getD 0 = l.shares.getD 0 + 1) ∧
  (∀ k c c', l.comments.get? k = some c → l'.comments.get? k = some c' →
    c'.likes = c.likes ∨ c'.likes = c.likes + 1)

/-- A counter-increment request (the four `$inc` routes). -/
inductive BumpOp where
  | view (i : Nat)
  | like (i : Nat)
  | save (i : Nat)
  | share (i : Nat)
deriving Repr, DecidableEq

def applyBump (s : Store) : BumpOp → Store
  | BumpOp.view i => (viewLesson s i).1
  | BumpOp.like i => (likeLesson s i).1
  | BumpOp.save i => (saveLesson s i).1
  | BumpOp.share i => (shareLesson s i).1

def viewHits (i : Nat) : List BumpOp → Nat
  | [] => 0
  | BumpOp.view j :: ops => (if j = i then 1 else 0) + viewHits i ops
  | _ :: ops => viewHits i ops

def likeHits (i : Nat) : List BumpOp → Nat
  | [] => 0
  | BumpOp.like j :: ops => (if j = i then 1 else 0) + likeHits i ops
  | _ :: ops => likeHits i ops

def saveHits (i : Nat) : List BumpOp → Nat
  | [] => 0
  | BumpOp.save j :: ops => (if j = i then 1 else 0) + saveHits i ops
  | _ :: ops => saveHits i ops

def shareHits (i : Nat) : List BumpOp → Nat
  | [] => 0
  | BumpOp.share j :: ops => (if j = i then 1 else 0) + shareHits i ops
  | _ :: ops => shareHits i ops

/-- The four counters of a lesson, with an absent `shares` read as 0 (as
`$inc` does). -/
def counterVals (l : Lesson) : Int × Int × Int × Int :=
  (l.likes, l.views, l.saves, l.shares.getD 0)

/-- A store with a single fresh lesson, used to instantiate the theorems. -/
def oneLessonStore : Store :=
  { lessons := [{ lid := 0 }], contributors := [], nextId := 1 }

/-- A store with three lessons inserted in order 0, 1, 2. -/
def threeLessonStore : Store :=
  { lessons := [{ lid := 0 }, { lid := 1 }, { lid := 2 }]
    contributors := [], nextId := 3 }

/-- A store with one fully populated lesson, used for the update claims. -/
def draftLesson : Lesson :=
  { lid := 0, title := some "T", content := some "C", image := some "I" }

def draftStore : Store :=
  { lessons := [draftLesson], contributors := [], nextId := 1 }

/-- A lesson with two comments, used for the reply-isolation claim. -/
def twoCommentLesson : Lesson :=
  { lid := 0
    comments :=
      [{ cid := 1, user := none, text := "first", likes := 3, replies := []
         createdAt := 0 },
       { cid := 2, user := none, text := "second", likes := 5, replies := []
         createdAt := 0 }] }

def twoCommentStore : Store :=
  { lessons := [twoCommentLesson], contributors := [], nextId := 3 }

/-! Helper lemmas about the document-store primitives. -/

/-- Updating the first match and then looking it up with the same filter gives
the image of the original first match, provided the update preserves the
filter. -/
theorem find?_updateFirst_self {α : Type} (q : α → Bool) (f : α → α)
    (hf : ∀ x, q (f x) = q x) (ls : List α) :
    (updateFirst q f ls).find? q = (ls.find? q).map f := by
  induction ls with
  | nil => rfl
  | cons x xs ih =>
    simp only [updateFirst]
    by_cases hx : q x
    · rw [if_pos hx, List.find?_cons_of_pos _ ((hf x).symm ▸ hx),
        List.find?_cons_of_pos _ hx, Option.map_some']
    · rw [if_neg hx, List.find?_cons_of_neg _ hx, List.find?_cons_of_neg _ hx]
      exact ih

/-- An update addressed by a filter disjoint from the lookup filter is
invisible to the lookup. -/
theorem find?_updateFirst_disjoint {α : Type} (p q : α → Bool) (f : α → α)
    (hpq : ∀ x, p x = true → q x = false) (hf : ∀ x, q (f x) = q x)
    (ls : List α) :
    (updateFirst p f ls).find? q = ls.find? q := by
  induction ls with
  | nil => rfl
  | cons x xs ih =>
    simp only [updateFirst]
    by_cases hp : p x
    · have hqx : q x = false := hpq x hp
      have hqfx : q (f x) = false := (hf x).trans hqx
      rw [if_pos hp, List.find?_cons_of_neg _ (by simp [hqfx]),
        List.find?_cons_of_neg _ (by simp [hqx])]
    · rw [if_neg hp]
      by_cases hq : q x
      · rw [List.find?_cons_of_pos _ hq, List.find?_cons_of_pos _ hq]
      · rw [List.find?_cons_of_neg _ hq, List.find?_cons_of_neg _ hq]
        exact ih

/-- Position by position, `updateFirst` either leaves an element alone or
applies the update to it. -/
theorem get?_updateFirst {α : Type} (p : α → Bool) (g : α → α) (ls : List α)
    (k : Nat) :
    (updateFirst p g ls).get? k = ls.get? k ∨
    (updateFirst p g ls).get? k = (ls.get? k).map g := by
  induction ls generalizing k with
  | nil => exact Or.inl rfl
  | cons x xs ih =>
    simp only [updateFirst]
    by_cases hp : p x
    · rw [if_pos hp]
      cases k with
      | zero => exact Or.inr rfl
      | succ k => exact Or.inl rfl
    · rw [if_neg hp]
      cases k with
      | zero => exact Or.inl rfl
      | succ k =>
        simp only [List.get?_cons_succ]
        exact ih k

/-- A pointwise property survives `updateFirst` when the update preserves
it. -/
theorem forall_updateFirst {α : Type} {P : α → Prop} (p : α → Bool)
    (g : α → α) (ls : List α) (h : ∀ x ∈ ls, P x)
    (hg : ∀ x, P x → P (g x)) :
    ∀ x ∈ updateFirst p g ls, P x := by
  induction ls with
  | nil => intro x hx; cases hx
  | cons y ys ih =>
    intro x hx
    simp only [updateFirst] at hx
    by_cases hp : p y
    · rw [if_pos hp] at hx
      rcases List.mem_cons.mp hx with h1 | h2
      · exact h1 ▸ hg y (h y (List.mem_cons_self y ys))
      · exact h x (List.mem_cons_of_mem y h2)
    · rw [if_neg hp] at hx
      rcases List.mem_cons.mp hx with h1 | h2
      · exact h1 ▸ h y (List.mem_cons_self y ys)
      · exact ih (fun z hz => h z (List.mem_cons_of_mem y hz)) x h2

/-- A pointwise property survives `removeFirst`. -/
theorem forall_removeFirst {α : Type} {P : α → Prop} (p : α → Bool)
    (ls : List α) (h : ∀ x ∈ ls, P x) :
    ∀ x ∈ removeFirst p ls, P x := by
  induction ls with
  | nil => intro x hx; cases hx
  | cons y ys ih =>
    intro x hx
    simp only [removeFirst] at hx
    by_cases hp : p y
    · rw [if_pos hp] at hx
      exact h x (List.mem_cons_of_mem y hx)
    · rw [if_neg hp] at hx
      rcases List.mem_cons.mp hx with h1 | h2
      · exact h1 ▸ h y (List.mem_cons_self y ys)
      · exact ih (fun z hz => h z (List.mem_cons_of_mem y hz)) x h2

/-- `find?` through an appended block, when the left block already has a
match. -/
theorem find?_append_some {α : Type} (q : α → Bool) (ls ds : List α) (a : α)
    (h : ls.find? q = some a) : (ls ++ ds).find? q = some a := by
  rw [List.find?_append, h, Option.or]

/-- `find?` through an appended block, when the left block has no match. -/
theorem find?_append_none {α : Type} (q : α → Bool) (ls ds : List α)
    (h : ls.find? q = none) : (ls ++ ds).find? q = ds.find? q := by
  rw [List.find?_append, h, Option.none_or]

theorem lessonStep_refl (l : Lesson) : lessonStep l l := by
  refine ⟨Or.inl rfl, Or.inl rfl, Or.inl rfl, Or.inl rfl, ?_⟩
  intro k c c' h h'
  rw [h] at h'
  exact Or.inl (by injection h' with e; rw [e])

/-- Master step lemma: whatever filter an `updateOne` used, the lesson a
lookup returns changes by at most one counter step, provided the update
itself is a counter step and preserves the lookup filter. -/
theorem lessonStep_find_updateFirst (p : Lesson → Bool) (f : Lesson → Lesson)
    (hf : ∀ x, lessonStep x (f x)) (q : Lesson → Bool)
    (hq : ∀ x, q (f x) = q x) (ls : List Lesson) (l l' : Lesson)
    (h : ls.find? q = some l) (h' : (updateFirst p f ls).find? q = some l') :
    lessonStep l l' := by
  induction ls with
  | nil => cases h
  | cons x xs ih =>
    simp only [updateFirst] at h'
    by_cases hp : p x
    · rw [if_pos hp] at h'
      by_cases hqx : q x
      · rw [List.find?_cons_of_pos _ hqx] at h
        rw [List.find?_cons_of_pos _ ((hq x).symm ▸ hqx)] at h'
        injection h with e
        injection h' with e'
        rw [← e, ← e']
        exact hf x
      · rw [List.find?_cons_of_neg _ hqx] at h
        rw [List.find?_cons_of_neg _ (by rw [hq x]; exact hqx)] at h'
        rw [h] at h'
        injection h' with e
        exact e ▸ lessonStep_refl l
    · rw [if_neg hp] at h'
      by_cases hqx : q x
      · rw [List.find?_cons_of_pos _ hqx] at h h'
        injection h with e
        injection h' with e'
        rw [← e, ← e']
        exact lessonStep_refl x
      · rw [List.find?_cons_of_neg _ hqx] at h h'
        exact ih h h'

/-- Once the unique lesson with a given id is deleted, a lookup for that id
finds nothing. -/
theorem findLesson_removeFirst_none (ls : List Lesson) (i : Nat)
    (hn : (ls.map Lesson.lid).Nodup) (l : Lesson)
    (h : ls.find? (fun x => x.lid == i) = some l) :
    (removeFirst (fun x => x.lid == i) ls).find? (fun x => x.lid == i)
      = none := by
  induction ls with
  | nil => cases h
  | cons x xs ih =>
    simp only [List.map_cons, List.nodup_cons] at hn
    simp only [removeFirst]
    by_cases hx : x.lid == i
    · rw [if_pos hx]
      rw [List.find?_eq_none]
      intro y hy hyq
      have hxi : x.lid = i := by simpa using hx
      have hyi : y.lid = i := by simpa using hyq
      exact hn.1 (hxi ▸ hyi ▸ List.mem_map_of_mem Lesson.lid hy)
    · rw [if_neg hx]
      rw [List.find?_cons_of_neg xs hx] at h
      rw [List.find?_cons_of_neg (removeFirst (fun y => y.lid == i) xs) hx]
      exact ih hn.2 h

/-- Effect of a counter route on a lookup of the targeted lesson. -/
theorem findLesson_bumpLesson_self (s : Store) (i : Nat) (f : Lesson → Lesson)
    (hf : ∀ x, (f x).lid = x.lid) (l : Lesson) (h : findLesson s i = some l) :
    findLesson (bumpLesson s i f).1 i = some (f l) := by
  show (updateFirst (fun x => x.lid == i) f s.lessons).find?
    (fun x => x.lid == i) = some (f l)
  rw [find?_updateFirst_self _ _ (fun x => by rw [hf]) s.lessons]
  rw [show s.lessons.find? (fun x => x.lid == i) = some l from h]
  rfl

/-- A counter route addressed at a different lesson id is invisible to a
lookup. -/
theorem findLesson_bumpLesson_other (s : Store) (i j : Nat) (hij : j ≠ i)
    (f : Lesson → Lesson) (hf : ∀ x, (f x).lid = x.lid) :
    findLesson (bumpLesson s j f).1 i = findLesson s i := by
  show (updateFirst (fun x => x.lid == j) f s.lessons).find?
    (fun x => x.lid == i) = s.lessons.find? (fun x => x.lid == i)
  refine find?_updateFirst_disjoint _ _ _ ?_ (fun x => by rw [hf]) s.lessons
  intro x hx
  have : x.lid = j := by simpa using hx
  simp [this, hij]

theorem checkoutAmount_val : checkoutAmount = 1181 := by
  unfold checkoutAmount jsMathRound
  rw [Int.floor_eq_iff]
  norm_num

/-- Claim C3 (amended): in the part_002 revision, a single-lesson retrieval
answers 404 exactly when no stored lesson matches the identifier, and never
answers 200 with a null body; the index.js revision instead answers 200 with
a null body on a miss (see the counterexample). -/
theorem single_fetch_notfound_amended (s : Store) (i : Nat) :
    (getLesson2 s i = GetResp.notFound ↔ findLesson s i = none) ∧
    getLesson2 s i ≠ GetResp.okNull := by
  cases h : findLesson s i with
  | none => simp [getLesson2, h]
  | some l => simp [getLesson2, h]

/-- Claim C3 counterexample: the index.js GET /lessons/:id, on an identifier
matching no stored lesson, responds 200 with a null body — the claim says
this never happens. -/
theorem single_fetch_null_body :
    getLessonIdx emptyStore 1 = FindOneResp.nullBody := rfl

/-- Claim C8: the charged minor-unit amount is round((1500 / 127) * 100)
= 1181, independent of the request; the session carries the lesson identifier
as metadata and the handler returns the provider's redirect URL. -/
theorem checkout_session_contract (stripeCreate : SessionParams → String)
    (r : CheckoutReq) :
    createCheckoutSession stripeCreate r
        = stripeCreate (checkoutSessionParams r) ∧
    (checkoutSessionParams r).unitAmount = 1181 ∧
    (checkoutSessionParams r).currency = "usd" ∧
    (checkoutSessionParams r).metadataLessonId = r.lessonId ∧
    (∀ r' : CheckoutReq, (checkoutSessionParams r').unitAmount
        = (checkoutSessionParams r).unitAmount) := by
  exact ⟨rfl, checkoutAmount_val, rfl, rfl, fun r' => rfl⟩

/-- Claim C2 (amended): listing returns the lessons newest first (a sorted
prefix of the newest-first order); a NaN limit (absent or non-numeric) and a
limit of 0 return everything; any other parsed limit k returns at most |k|
documents — for positive k this is the claimed "at most k", but for negative
k MongoDB's single-batch semantics returns at most |k| documents rather than
all of them. -/
theorem listing_limit_amended (s : Store) (q : Option String)
    (hwf : ((byNewest s).map Lesson.lid).Sorted (fun a b => b < a)) :
    ((getLessons s q).map Lesson.lid).Sorted (fun a b => b < a) ∧
    (jsParseInt q = none → getLessons s q = byNewest s) ∧
    (∀ k : Int, jsParseInt q = some k →
      getLessons s q = mongoLimit k (byNewest s)) ∧
    (jsParseInt q = some 0 → getLessons s q = byNewest s) ∧
    (∀ k : Int, jsParseInt q = some k → k ≠ 0 →
      (getLessons s q).length = min k.natAbs (byNewest s).length) := by
  have htake : ∀ n : Nat,
      (((byNewest s).take n).map Lesson.lid).Sorted (fun a b => b < a) := by
    intro n
    rw [List.map_take]
    exact List.Pairwise.sublist (List.take_sublist n _) hwf
  cases hq : jsParseInt q with
  | none =>
    refine ⟨by simp [getLessons, hq, hwf], fun _ => by simp [getLessons, hq],
      ?_, ?_, ?_⟩
    · intro k hk; cases hk
    · intro hk; cases hk
    · intro k hk; cases hk
  | some k =>
    have hg : getLessons s q = mongoLimit k (byNewest s) := by
      simp [getLessons, hq]
    refine ⟨?_, ?_, ?_, ?_, ?_⟩
    · rw [hg]; unfold mongoLimit
      by_cases h0 : k = 0
      · simpa [h0] using hwf
      · simpa [h0] using htake k.natAbs
    · intro h; cases h
    · intro k' hk'; injection hk' with e; rw [hg, ← e]
    · intro h0; injection h0 with e
      rw [hg, e]; simp [mongoLimit]
    · intro k' hk' hne; injection hk' with e; subst e
      rw [hg]; unfold mongoLimit; rw [if_neg hne]
      exact List.length_take _ _

/-- Claim C2 counterexample: on a store of 3 lessons, the limit value "-2"
(negative, hence "any other limit value" in the claim) returns 2 documents,
not all 3. -/
theorem listing_negative_limit_counterexample :
    (getLessons threeLessonStore (some "-2")).length = 2 ∧
    threeLessonStore.lessons.length = 3 := by
  constructor <;> rfl

theorem listing_limit_witness :
    ((getLessons threeLessonStore (some "2")).map Lesson.lid).Sorted
      (fun a b => b < a) :=
  (listing_limit_amended threeLessonStore (some "2") (by decide)).1

/-- Claim C1 (amended): creation persists `likes = views = saves = 0` and an
empty comment sequence in both revisions, and the round-trip read returns the
same values; `shares` is initialized to 0 only in the part_002 revision,
while the index.js revision persists whatever `shares` value the request body
carried (absent by default).  Freshness of the generated ObjectId is the
`hfresh` hypothesis. -/
theorem lesson_creation_roundtrip_amended (s : Store) (r : LessonReq)
    (now : Nat) (hfresh : ∀ l ∈ s.lessons, l.lid ≠ s.nextId) :
    ((postLesson2 s r now).1.lessons.map
        (fun l => (l.likes, l.views, l.saves, l.shares, l.comments))
      = s.lessons.map
          (fun l => (l.likes, l.views, l.saves, l.shares, l.comments))
        ++ [(0, 0, 0, some 0, [])]) ∧
    (∃ L cnt, getLesson2 (postLesson2 s r now).1 s.nextId = GetResp.ok L cnt ∧
      L.likes = 0 ∧ L.views = 0 ∧ L.saves = 0 ∧ L.shares = some 0 ∧
      L.comments = []) ∧
    ((postLesson s r now).1.lessons.map
        (fun l => (l.likes, l.views, l.saves, l.comments))
      = s.lessons.map (fun l => (l.likes, l.views, l.saves, l.comments))
        ++ [(0, 0, 0, [])]) ∧
    (∃ L, getLessonIdx (postLesson s r now).1 s.nextId = FindOneResp.body L ∧
      L.likes = 0 ∧ L.views = 0 ∧ L.saves = 0 ∧ L.comments = [] ∧
      L.shares = r.shares) := by
  have hnone : s.lessons.find? (fun l => l.lid == s.nextId) = none :=
    List.find?_eq_none.mpr (fun x hx => by simp [hfresh x hx])
  refine ⟨by simp [postLesson2], ?_, by simp [postLesson], ?_⟩
  · have hfind : findLesson (postLesson2 s r now).1 s.nextId = some
        { lid := s.nextId, title := r.title, content := r.content
          image := r.image
          author := some (orDefault r.author "Anonymous")
          authorAvatar := some (orDefault r.authorAvatar "/images/default.jpg")
          likes := 0, views := 0, saves := 0, shares := some 0, comments := []
          createdAt := now, updatedAt := none } := by
      simp only [findLesson, postLesson2]
      rw [find?_append_none _ _ _ hnone]
      rw [List.find?_cons_of_pos _ (by simp)]
    simp only [getLesson2, hfind]
    exact ⟨_, _, rfl, rfl, rfl, rfl, rfl, rfl⟩
  · have hfind : findLesson (postLesson s r now).1 s.nextId = some
        { lid := s.nextId, title := r.title, content := r.content
          image := r.image, author := r.author
          authorAvatar := r.authorAvatar
          likes := 0, views := 0, saves := 0, shares := r.shares
          comments := [], createdAt := now, updatedAt := none } := by
      simp only [findLesson, postLesson]
      rw [find?_append_none _ _ _ hnone]
      rw [List.find?_cons_of_pos _ (by simp)]
    simp only [getLessonIdx, hfind]
    exact ⟨_, rfl, rfl, rfl, rfl, rfl, rfl⟩

/-- Claim C1 counterexample: the index.js POST /lessons persists the request
body's `shares` value untouched — a body with `shares = 5` yields a persisted
lesson whose shares counter is 5, not 0. -/
theorem lesson_creation_shares_passthrough :
    ((postLesson emptyStore { shares := some 5 } 7).1.lessons.map
        Lesson.shares) = [some 5] ∧
    ((postLesson emptyStore { shares := some 5 } 7).1.lessons.map
        Lesson.shares) ≠ [some 0] := by
  exact ⟨rfl, by decide⟩

theorem lesson_creation_roundtrip_witness :
    ∃ L cnt, getLesson2 (postLesson2 emptyStore {} 7).1 0 = GetResp.ok L cnt ∧
      L.likes = 0 ∧ L.views = 0 ∧ L.saves = 0 ∧ L.shares = some 0 ∧
      L.comments = [] :=
  (lesson_creation_roundtrip_amended emptyStore {} 7
    (by intro l hl; cases hl)).2.1

/-- Claim C4: a comment-append with falsy (absent or empty) text is rejected
with 400 and the store — hence every comment sequence — is unchanged; with
non-empty text the response is the newly built comment (fresh id, zero likes,
empty replies, current timestamp), not the lesson, and the comment is
appended to the target lesson's comment sequence. -/
theorem comment_append_contract (s : Store) (i : Nat) (u : Option String)
    (now : Nat) :
    (∀ t, textFalsy t = true → addComment s i t u now
        = (s, CommentResp.badRequest "Comment text required")) ∧
    (∀ txt : String, txt ≠ "" →
      (addComment s i (some txt) u now).2 = CommentResp.created
        { cid := s.nextId, user := u, text := txt, likes := 0, replies := []
          createdAt := now }) ∧
    (∀ txt : String, txt ≠ "" → ∀ L, findLesson s i = some L →
      findLesson (addComment s i (some txt) u now).1 i = some
        { L with comments := L.comments ++
            [{ cid := s.nextId, user := u, text := txt, likes := 0
               replies := [], createdAt := now }] }) := by
  refine ⟨?_, ?_, ?_⟩
  · intro t ht; simp [addComment, ht]
  · intro txt h
    have hf : textFalsy (some txt) = false := by simp [textFalsy, h]
    simp [addComment, hf]
  · intro txt h L hL
    have hf : textFalsy (some txt) = false := by simp [textFalsy, h]
    simp only [addComment, hf, Bool.false_eq_true, if_false]
    show (updateFirst (fun l => l.lid == i) _ s.lessons).find?
      (fun l => l.lid == i) = _
    rw [find?_updateFirst_self _ _ (fun x => by simp) s.lessons]
    rw [show s.lessons.find? (fun l => l.lid == i) = some L from hL]
    rfl

theorem comment_append_contract_witness :
    addComment oneLessonStore 0 (some "") none 3
        = (oneLessonStore, CommentResp.badRequest "Comment text required") ∧
    (addComment oneLessonStore 0 (some "hi") none 3).2 = CommentResp.created
      { cid := 1, user := none, text := "hi", likes := 0, replies := []
        createdAt := 3 } :=
  ⟨(comment_append_contract oneLessonStore 0 none 3).1 (some "") (by decide),
   (comment_append_contract oneLessonStore 0 none 3).2.1 "hi" (by decide)⟩

/-- Claim C7 (amended): the update answers 404 (store unchanged) when no
lesson matches; on a match it always sets all three editable fields to the
request's values — an omitted field is serialized as null by the driver and
so overwrites the stored value with null rather than keeping it — plus a
fresh `updatedAt`. -/
theorem lesson_update_amended (s : Store) (i : Nat)
    (title content image : Option String) (now : Nat) :
    (findLesson s i = none →
      putLesson s i title content image now = (s, UpdateResp.notFound)) ∧
    (∀ L, findLesson s i = some L →
      (putLesson s i title content image now).2 = UpdateResp.updated ∧
      findLesson (putLesson s i title content image now).1 i = some
        { L with title := title, content := content, image := image
                 updatedAt := some now }) := by
  constructor
  · intro h
    have hany : ¬ (s.lessons.any (fun l => l.lid == i) = true) := by
      intro hany
      rcases List.any_eq_true.mp hany with ⟨x, hx, hq⟩
      exact (List.find?_eq_none.mp h) x hx hq
    simp [putLesson, hany]
  · intro L hL
    have hL' : s.lessons.find? (fun l => l.lid == i) = some L := hL
    have hpL := List.find?_some hL'
    have hany : s.lessons.any (fun l => l.lid == i) = true :=
      List.any_eq_true.mpr ⟨L, List.mem_of_find?_eq_some hL', hpL⟩
    refine ⟨by simp [putLesson, hany], ?_⟩
    simp only [putLesson, hany, if_true]
    show (updateFirst (fun l => l.lid == i) _ s.lessons).find?
      (fun l => l.lid == i) = _
    rw [find?_updateFirst_self _ _ (fun x => by simp) s.lessons]
    rw [show s.lessons.find? (fun l => l.lid == i) = some L from hL]
    rfl

/-- Claim C7 counterexample: updating a lesson whose content is "C" with a
request that provides only a title leaves the stored content null, not "C". -/
theorem lesson_update_clobbers_omitted :
    ((putLesson draftStore 0 (some "NewT") none none 9).1.lessons.map
        Lesson.content) = [none] ∧
    draftStore.lessons.map Lesson.content = [some "C"] := by
  constructor <;> rfl

theorem lesson_update_witness :
    findLesson (putLesson draftStore 0 (some "NewT") none none 9).1 0 = some
      { draftLesson with title := some "NewT", content := none, image := none
                         updatedAt := some 9 } :=
  ((lesson_update_amended draftStore 0 (some "NewT") none none 9).2
    draftLesson rfl).2

/-- Claim C10: POST /contributors persists the caller-supplied lessons count
as given (with falsy defaults for absent name/lessons/avatar), touching no
lesson documents — so the persisted count is arbitrary and unrelated to the
author's actual lesson count — even though the part_002 lesson creation
maintains the same counter by upsert (starting it at 1 on first sight). -/
theorem contributor_arbitrary_lessons (s : Store) (r : ContributorReq)
    (now : Nat) (n : Int) (hn : r.lessons = some n) (h0 : n ≠ 0) :
    (postContributor2 s r now).1.contributors
      = s.contributors ++
        [{ name := orDefault r.name "Anonymous"
           avatar := orDefault r.avatar "/images/default.jpg"
           lessons := n, createdAt := now }] ∧
    (postContributor2 s r now).1.lessons = s.lessons ∧
    (∀ rl : LessonReq, ∀ t : Nat, ∀ s' : Store, s'.contributors = [] →
      (postLesson2 s' rl t).1.contributors.map Contributor.lessons = [1]) := by
  refine ⟨?_, rfl, ?_⟩
  · simp [postContributor2, jsOrInt, hn, h0]
  · intro rl t s' h
    simp [postLesson2, h, upsertContributorBy]

theorem contributor_arbitrary_lessons_witness :
    (postContributor2 emptyStore
        { name := some "alice", lessons := some 42 } 0).1.contributors
      = [{ name := "alice", avatar := "/images/default.jpg", lessons := 42
           createdAt := 0 }] := by
  have h := contributor_arbitrary_lessons emptyStore
    { name := some "alice", lessons := some 42 } 0 42 rfl (by decide)
  simpa [emptyStore, orDefault] using h.1

/-- Any interleaving of counter-increment requests leaves each counter of a
lesson equal to its initial value plus the number of increments addressed to
that counter of that lesson. -/
theorem counter_increment_fold (ops : List BumpOp) (s : Store) (i : Nat)
    (l : Lesson) (h : findLesson s i = some l) :
    (findLesson (ops.foldl applyBump s) i).map counterVals
      = some (l.likes + (likeHits i ops : Int),
              l.views + (viewHits i ops : Int),
              l.saves + (saveHits i ops : Int),
              l.shares.getD 0 + (shareHits i ops : Int)) := by
  induction ops generalizing s l with
  | nil =>
    simp [h, counterVals, likeHits, viewHits, saveHits, shareHits]
  | cons op rest ih =>
    rw [List.foldl_cons]
    cases op with
    | view j =>
      by_cases hj : j = i
      · subst hj
        have hstep : findLesson (applyBump s (BumpOp.view j)) j
            = some { l with views := l.views + 1 } :=
          findLesson_bumpLesson_self s j
            (fun x => { x with views := x.views + 1 }) (fun x => rfl) l h
        rw [ih _ _ hstep]
        simp only [likeHits, viewHits, saveHits, shareHits, if_pos rfl]
        push_cast
        refine congrArg some ?_
        refine Prod.ext rfl (Prod.ext ?_ (Prod.ext rfl rfl))
        show l.views + 1 + (viewHits j rest : Int)
          = l.views + ((1 : Int) + (viewHits j rest : Int))
        ring
      · have hother : findLesson (applyBump s (BumpOp.view j)) i
            = findLesson s i :=
          findLesson_bumpLesson_other s i j hj
            (fun x => { x with views := x.views + 1 }) (fun x => rfl)
        rw [ih _ _ (hother.trans h)]
        simp [likeHits, viewHits, saveHits, shareHits, hj]
    | like j =>
      by_cases hj : j = i
      · subst hj
        have hstep : findLesson (applyBump s (BumpOp.like j)) j
            = some { l with likes := l.likes + 1 } :=
          findLesson_bumpLesson_self s j
            (fun x => { x with likes := x.likes + 1 }) (fun x => rfl) l h
        rw [ih _ _ hstep]
        simp only [likeHits, viewHits, saveHits, shareHits, if_pos rfl]
        push_cast
        refine congrArg some ?_
        refine Prod.ext ?_ (Prod.ext rfl (Prod.ext rfl rfl))
        show l.likes + 1 + (likeHits j rest : Int)
          = l.likes + ((1 : Int) + (likeHits j rest : Int))
        ring
      · have hother : findLesson (applyBump s (BumpOp.like j)) i
            = findLesson s i :=
          findLesson_bumpLesson_other s i j hj
            (fun x => { x with likes := x.likes + 1 }) (fun x => rfl)
        rw [ih _ _ (hother.trans h)]
        simp [likeHits, viewHits, saveHits, shareHits, hj]
    | save j =>
      by_cases hj : j = i
      · subst hj
        have hstep : findLesson (applyBump s (BumpOp.save j)) j
            = some { l with saves := l.saves + 1 } :=
          findLesson_bumpLesson_self s j
            (fun x => { x with saves := x.saves + 1 }) (fun x => rfl) l h
        rw [ih _ _ hstep]
        simp only [likeHits, viewHits, saveHits, shareHits, if_pos rfl]
        push_cast
        refine congrArg some ?_
        refine Prod.ext rfl (Prod.ext rfl (Prod.ext ?_ rfl))
        show l.saves + 1 + (saveHits j rest : Int)
          = l.saves + ((1 : Int) + (saveHits j rest : Int))
        ring
      · have hother : findLesson (applyBump s (BumpOp.save j)) i
            = findLesson s i :=
          findLesson_bumpLesson_other s i j hj
            (fun x => { x with saves := x.saves + 1 }) (fun x => rfl)
        rw [ih _ _ (hother.trans h)]
        simp [likeHits, viewHits, saveHits, shareHits, hj]
    | share j =>
      by_cases hj : j = i
      · subst hj
        have hstep : findLesson (applyBump s (BumpOp.share j)) j
            = some { l with shares := some (l.shares.getD 0 + 1) } :=
          findLesson_bumpLesson_self s j
            (fun x => { x with shares := some (x.shares.getD 0 + 1) })
            (fun x => rfl) l h
        rw [ih _ _ hstep]
        simp only [likeHits, viewHits, saveHits, shareHits, if_pos rfl]
        push_cast
        refine congrArg some ?_
        refine Prod.ext rfl (Prod.ext rfl (Prod.ext rfl ?_))
        show (some (l.shares.getD 0 + 1)).getD 0 + (shareHits j rest : Int)
          = l.shares.getD 0 + ((1 : Int) + (shareHits j rest : Int))
        simp [Option.getD]
        ring
      · have hother : findLesson (applyBump s (BumpOp.share j)) i
            = findLesson s i :=
          findLesson_bumpLesson_other s i j hj
            (fun x => { x with shares := some (x.shares.getD 0 + 1) })
            (fun x => rfl)
        rw [ih _ _ (hother.trans h)]
        simp [likeHits, viewHits, saveHits, shareHits, hj]

/-- Claim C5: each counter route answers only a success acknowledgement (no
document); a like on an existing lesson raises its stored like count by
exactly 1; and any interleaved sequence of N increment requests to the same
counter of the same lesson leaves that counter at its pre-call value plus N
(the general fold covers every interleaving with other counter requests). -/
theorem counter_increment_contract (s : Store) (i : Nat) (l : Lesson)
    (h : findLesson s i = some l) :
    (viewLesson s i).2 = { success := true } ∧
    (likeLesson s i).2 = { success := true } ∧
    (saveLesson s i).2 = { success := true } ∧
    (shareLesson s i).2 = { success := true } ∧
    (findLesson (likeLesson s i).1 i).map Lesson.likes = some (l.likes + 1) ∧
    (∀ ops : List BumpOp,
      (findLesson (ops.foldl applyBump s) i).map counterVals
        = some (l.likes + (likeHits i ops : Int),
                l.views + (viewHits i ops : Int),
                l.saves + (saveHits i ops : Int),
                l.shares.getD 0 + (shareHits i ops : Int))) := by
  refine ⟨rfl, rfl, rfl, rfl, ?_, fun ops => counter_increment_fold ops s i l h⟩
  simp only [likeLesson]
  rw [findLesson_bumpLesson_self s i
    (fun x => { x with likes := x.likes + 1 }) (fun x => rfl) l h]
  rfl

theorem counter_increment_contract_witness :
    (findLesson (likeLesson oneLessonStore 0).1 0).map Lesson.likes
      = some 1 := by
  have h := counter_increment_contract oneLessonStore 0 { lid := 0 } rfl
  simpa using h.2.2.2.2.1

theorem map_congr_mem {α β : Type} (f g : α → β) (ls : List α)
    (h : ∀ x ∈ ls, f x = g x) : ls.map f = ls.map g := by
  induction ls with
  | nil => rfl
  | cons x xs ih =>
    simp only [List.map_cons]
    rw [h x (List.mem_cons_self x xs),
      ih (fun z hz => h z (List.mem_cons_of_mem x hz))]

theorem map_ite_key_id {α : Type} (key : α → Nat) (i : Nat) (g : α → α)
    (ls : List α) (h : ∀ x ∈ ls, key x ≠ i) :
    ls.map (fun x => if key x = i then g x else x) = ls := by
  induction ls with
  | nil => rfl
  | cons x xs ih =>
    simp only [List.map_cons]
    rw [if_neg (h x (List.mem_cons_self x xs)),
      ih (fun z hz => h z (List.mem_cons_of_mem x hz))]

/-- When the keys are pairwise distinct, updating the first key-match is the
same as updating every key-match. -/
theorem updateFirst_key_eq_map {α : Type} (key : α → Nat) (i : Nat)
    (F : α → α) (ls : List α) (hn : (ls.map key).Nodup) :
    updateFirst (fun x => key x == i) F ls
      = ls.map (fun x => if key x = i then F x else x) := by
  induction ls with
  | nil => rfl
  | cons x xs ih =>
    simp only [List.map_cons, List.nodup_cons] at hn
    simp only [updateFirst, List.map_cons]
    by_cases hx : key x = i
    · rw [if_pos (by simp [hx]), if_pos hx]
      have hne : ∀ z ∈ xs, key z ≠ i := by
        intro z hz hzi
        exact hn.1 (hx ▸ hzi ▸ List.mem_map_of_mem key hz)
      rw [map_ite_key_id key i F xs hne]
    · rw [if_neg (by simp [hx]), if_neg hx, ih hn.2]

/-- Same as `updateFirst_key_eq_map`, for a filter that also carries a side
condition (the reply/comment-like routes filter on lesson id AND comment id);
the side condition must hold at the unique key-match. -/
theorem updateFirst_key_side_eq_map {α : Type} (key : α → Nat) (i : Nat)
    (b : α → Bool) (F : α → α) (ls : List α) (hn : (ls.map key).Nodup)
    (L : α) (hL : ls.find? (fun x => key x == i) = some L)
    (hb : b L = true) :
    updateFirst (fun x => key x == i && b x) F ls
      = ls.map (fun x => if key x = i then F x else x) := by
  induction ls with
  | nil => cases hL
  | cons x xs ih =>
    simp only [List.map_cons, List.nodup_cons] at hn
    simp only [updateFirst, List.map_cons]
    by_cases hx : key x = i
    · rw [List.find?_cons_of_pos xs (by simp [hx])] at hL
      injection hL with e
      subst e
      rw [if_pos (by simp [hx, hb]), if_pos hx]
      have hne : ∀ z ∈ xs, key z ≠ i := by
        intro z hz hzi
        exact hn.1 (hx ▸ hzi ▸ List.mem_map_of_mem key hz)
      rw [map_ite_key_id key i F xs hne]
    · rw [List.find?_cons_of_neg xs (by simp [hx])] at hL
      rw [if_neg (by simp [hx]), if_neg hx, ih hn.2 hL]

/-- Under distinct keys, the first key-match found by `find?` is the only
key-match. -/
theorem find?_key_unique {α : Type} (key : α → Nat) (i : Nat) (ls : List α)
    (hn : (ls.map key).Nodup) (L : α)
    (hL : ls.find? (fun x => key x == i) = some L) :
    ∀ M ∈ ls, key M = i → M = L := by
  induction ls with
  | nil => cases hL
  | cons x xs ih =>
    simp only [List.map_cons, List.nodup_cons] at hn
    intro M hM hMi
    by_cases hx : key x = i
    · rw [List.find?_cons_of_pos xs (by simp [hx])] at hL
      injection hL with e
      subst e
      rcases List.mem_cons.mp hM with h1 | h2
      · exact h1
      · exact absurd (hx ▸ hMi ▸ List.mem_map_of_mem key h2) hn.1
    · rw [List.find?_cons_of_neg xs (by simp [hx])] at hL
      rcases List.mem_cons.mp hM with h1 | h2
      · exact absurd (h1 ▸ hMi) hx
      · exact ih hn.2 hL M h2 hMi

/-- The positional `$push` into the first comment matching a cid, rewritten
as a pointwise map when comment ids are distinct. -/
theorem pushReply_eq_map (cs : List Comment) (cid : Nat) (r : Reply)
    (hc : (cs.map Comment.cid).Nodup) :
    pushReply cid r cs = cs.map (fun c => if c.cid = cid then
      { c with replies := c.replies ++ [r] } else c) :=
  updateFirst_key_eq_map Comment.cid cid _ cs hc

/-- Claim C6: a reply append is one filter-and-push update addressing lesson
L and comment C together; with distinct lesson and comment ids it rewrites
every lesson M ≠ L to itself and L to L with only comment C's reply sequence
extended — sibling comments, their like counters, and every other Lesson
field are untouched — and the response is the new reply.  (`hex` states that
C, the comment with the filtered cid, exists in L.) -/
theorem reply_append_isolation (s : Store) (i cid : Nat) (txt : String)
    (u : Option String) (now : Nat)
    (hn : (s.lessons.map Lesson.lid).Nodup) (L : Lesson)
    (hL : findLesson s i = some L)
    (hc : (L.comments.map Comment.cid).Nodup)
    (hex : L.comments.any (fun c => c.cid == cid) = true)
    (ht : txt ≠ "") :
    (addReply s i cid (some txt) u now).1.lessons
      = s.lessons.map (fun M => if M.lid = i then
          { M with comments := M.comments.map (fun c => if c.cid = cid then
              { c with replies := c.replies ++
                  [{ rid := s.nextId, user := u, text := txt
                     createdAt := now }] } else c) } else M) ∧
    (addReply s i cid (some txt) u now).2 = ReplyResp.created
      { rid := s.nextId, user := u, text := txt, createdAt := now } ∧
    (addReply s i cid (some txt) u now).1.contributors = s.contributors := by
  have hf : textFalsy (some txt) = false := by simp [textFalsy, ht]
  refine ⟨?_, by simp [addReply, hf], by simp [addReply, hf]⟩
  simp only [addReply, hf, Bool.false_eq_true, if_false, Option.getD_some]
  rw [updateFirst_key_side_eq_map Lesson.lid i
    (fun l => l.comments.any (fun c => c.cid == cid)) _ s.lessons hn L hL hex]
  refine map_congr_mem _ _ s.lessons ?_
  intro M hM
  by_cases hMi : M.lid = i
  · rw [if_pos hMi, if_pos hMi]
    have hML : M = L := find?_key_unique Lesson.lid i s.lessons hn L hL M hM hMi
    subst hML
    rw [pushReply_eq_map M.comments cid _ hc]
  · rw [if_neg hMi, if_neg hMi]

theorem reply_append_isolation_witness :
    (addReply twoCommentStore 0 1 (some "yo") none 9).2 = ReplyResp.created
      { rid := 3, user := none, text := "yo", createdAt := 9 } :=
  (reply_append_isolation twoCommentStore 0 1 "yo" none 9 (by decide)
    twoCommentLesson rfl (by decide) (by decide) (by decide)).2.1

theorem find?_removeFirst_disjoint {α : Type} (p q : α → Bool) (ls : List α)
    (hpq : ∀ x, p x = true → q x = false) :
    (removeFirst p ls).find? q = ls.find? q := by
  induction ls with
  | nil => rfl
  | cons x xs ih =>
    simp only [removeFirst]
    by_cases hp : p x
    · rw [if_pos hp, List.find?_cons_of_neg xs (by simp [hpq x hp])]
    · rw [if_neg hp]
      by_cases hq : q x
      · rw [List.find?_cons_of_pos (removeFirst p xs) hq,
          List.find?_cons_of_pos xs hq]
      · rw [List.find?_cons_of_neg (removeFirst p xs) hq,
          List.find?_cons_of_neg xs hq]
        exact ih

theorem comments_step_same (cs : List Comment) :
    ∀ k c c', cs.get? k = some c → cs.get? k = some c' →
      c'.likes = c.likes ∨ c'.likes = c.likes + 1 := by
  intro k c c' h1 h2
  rw [h1] at h2
  injection h2 with e
  exact Or.inl (by rw [e])

theorem comments_step_append (cs ds : List Comment) :
    ∀ k c c', cs.get? k = some c → (cs ++ ds).get? k = some c' →
      c'.likes = c.likes ∨ c'.likes = c.likes + 1 := by
  intro k c c' h1 h2
  have hk : k < cs.length := by
    by_contra hk
    rw [List.get?_eq_none.mpr (Nat.le_of_not_lt hk)] at h1
    cases h1
  rw [List.get?_append hk, h1] at h2
  injection h2 with e
  exact Or.inl (by rw [e])

theorem comments_step_updateFirst (p : Comment → Bool) (g : Comment → Comment)
    (hg : ∀ c, (g c).likes = c.likes ∨ (g c).likes = c.likes + 1)
    (cs : List Comment) :
    ∀ k c c', cs.get? k = some c → (updateFirst p g cs).get? k = some c' →
      c'.likes = c.likes ∨ c'.likes = c.likes + 1 := by
  intro k c c' h1 h2
  rcases get?_updateFirst p g cs k with he | he
  · rw [he, h1] at h2
    injection h2 with e
    exact Or.inl (by rw [e])
  · rw [he, h1] at h2
    simp only [Option.map_some'] at h2
    injection h2 with e
    rw [← e]
    exact hg c

theorem lessonStep_incViews (x : Lesson) :
    lessonStep x { x with views := x.views + 1 } :=
  ⟨Or.inl rfl, Or.inr rfl, Or.inl rfl, Or.inl rfl, comments_step_same x.comments⟩

theorem lessonStep_incLikes (x : Lesson) :
    lessonStep x { x with likes := x.likes + 1 } :=
  ⟨Or.inr rfl, Or.inl rfl, Or.inl rfl, Or.inl rfl, comments_step_same x.comments⟩

theorem lessonStep_incSaves (x : Lesson) :
    lessonStep x { x with saves := x.saves + 1 } :=
  ⟨Or.inl rfl, Or.inl rfl, Or.inr rfl, Or.inl rfl, comments_step_same x.comments⟩

theorem lessonStep_incShares (x : Lesson) :
    lessonStep x { x with shares := some (x.shares.getD 0 + 1) } :=
  ⟨Or.inl rfl, Or.inl rfl, Or.inl rfl, Or.inr rfl, comments_step_same x.comments⟩

theorem lessonStep_pushComment (c0 : Comment) (x : Lesson) :
    lessonStep x { x with comments := x.comments ++ [c0] } :=
  ⟨Or.inl rfl, Or.inl rfl, Or.inl rfl, Or.inl rfl,
   comments_step_append x.comments [c0]⟩

theorem lessonStep_pushReply (cid : Nat) (r : Reply) (x : Lesson) :
    lessonStep x { x with comments := pushReply cid r x.comments } :=
  ⟨Or.inl rfl, Or.inl rfl, Or.inl rfl, Or.inl rfl,
   comments_step_updateFirst (fun c => c.cid == cid)
     (fun c => { c with replies := c.replies ++ [r] })
     (fun c => Or.inl rfl) x.comments⟩

theorem lessonStep_bumpCommentLikes (cid : Nat) (x : Lesson) :
    lessonStep x { x with comments := bumpCommentLikes cid x.comments } :=
  ⟨Or.inl rfl, Or.inl rfl, Or.inl rfl, Or.inl rfl,
   comments_step_updateFirst (fun c => c.cid == cid)
     (fun c => { c with likes := c.likes + 1 })
     (fun c => Or.inr rfl) x.comments⟩

theorem lessonStep_put (t c im : Option String) (now : Nat) (x : Lesson) :
    lessonStep x { x with title := t, content := c, image := im
                          updatedAt := some now } :=
  ⟨Or.inl rfl, Or.inl rfl, Or.inl rfl, Or.inl rfl, comments_step_same x.comments⟩

/-- One request of the surface never decreases any counter of a lesson that
survives it, and raises each by at most one. -/
theorem lessonStep_step2 (s : Store) (op : Op) (i : Nat) (l l' : Lesson)
    (hn : (s.lessons.map Lesson.lid).Nodup)
    (h : findLesson s i = some l) (h' : findLesson (step2 s op) i = some l') :
    lessonStep l l' := by
  have hh : s.lessons.find? (fun x => x.lid == i) = some l := h
  cases op with
  | create r now =>
    simp only [step2, postLesson2, findLesson] at h'
    rw [find?_append_some _ s.lessons _ l hh] at h'
    injection h' with e
    rw [← e]
    exact lessonStep_refl l
  | view j =>
    simp only [step2, viewLesson, bumpLesson, findLesson] at h'
    exact lessonStep_find_updateFirst _ _ (fun x => lessonStep_incViews x) (fun x => x.lid == i)
      (fun x => rfl) s.lessons l l' hh h'
  | like j =>
    simp only [step2, likeLesson, bumpLesson, findLesson] at h'
    exact lessonStep_find_updateFirst _ _ (fun x => lessonStep_incLikes x) (fun x => x.lid == i)
      (fun x => rfl) s.lessons l l' hh h'
  | save j =>
    simp only [step2, saveLesson, bumpLesson, findLesson] at h'
    exact lessonStep_find_updateFirst _ _ (fun x => lessonStep_incSaves x) (fun x => x.lid == i)
      (fun x => rfl) s.lessons l l' hh h'
  | share j =>
    simp only [step2, shareLesson, bumpLesson, findLesson] at h'
    exact lessonStep_find_updateFirst _ _ (fun x => lessonStep_incShares x) (fun x => x.lid == i)
      (fun x => rfl) s.lessons l l' hh h'
  | comment j t u now =>
    by_cases hft : textFalsy t = true
    · simp only [step2, addComment, hft, if_true] at h'
      rw [h] at h'
      injection h' with e
      rw [← e]
      exact lessonStep_refl l
    · have hft' : textFalsy t = false := by
        revert hft; cases textFalsy t <;> simp
      simp only [step2, addComment, hft', Bool.false_eq_true, if_false,
        findLesson] at h'
      exact lessonStep_find_updateFirst _ _
        (fun x => lessonStep_pushComment _ x) (fun x => x.lid == i) (fun x => rfl) s.lessons
        l l' hh h'
  | reply j cid t u now =>
    by_cases hft : textFalsy t = true
    · simp only [step2, addReply, hft, if_true] at h'
      rw [h] at h'
      injection h' with e
      rw [← e]
      exact lessonStep_refl l
    · have hft' : textFalsy t = false := by
        revert hft; cases textFalsy t <;> simp
      simp only [step2, addReply, hft', Bool.false_eq_true, if_false,
        findLesson] at h'
      exact lessonStep_find_updateFirst _ _
        (fun x => lessonStep_pushReply cid _ x) (fun x => x.lid == i) (fun x => rfl) s.lessons
        l l' hh h'
  | commentLike j cid =>
    simp only [step2, likeComment, findLesson] at h'
    exact lessonStep_find_updateFirst _ _
      (fun x => lessonStep_bumpCommentLikes cid x) (fun x => x.lid == i) (fun x => rfl) s.lessons
      l l' hh h'
  | update j t c im now =>
    by_cases hany : s.lessons.any (fun x => x.lid == j) = true
    · simp only [step2, putLesson, if_pos hany, findLesson] at h'
      exact lessonStep_find_updateFirst _ _
        (fun x => lessonStep_put t c im now x) (fun x => x.lid == i) (fun x => rfl) s.lessons
        l l' hh h'
    · simp only [step2, putLesson, if_neg hany] at h'
      rw [h] at h'
      injection h' with e
      rw [← e]
      exact lessonStep_refl l
  | remove j =>
    by_cases hany : s.lessons.any (fun x => x.lid == j) = true
    · simp only [step2, deleteLesson, if_pos hany, findLesson] at h'
      by_cases hj : j = i
      · subst hj
        rw [findLesson_removeFirst_none s.lessons j hn l hh] at h'
        cases h'
      · rw [find?_removeFirst_disjoint (fun x => x.lid == j)
          (fun x => x.lid == i) s.lessons ?_] at h'
        · rw [hh] at h'
          injection h' with e
          rw [← e]
          exact lessonStep_refl l
        · intro x hx
          have hxj : x.lid = j := by simpa using hx
          simp [hxj, hj]
    · simp only [step2, deleteLesson, if_neg hany] at h'
      rw [h] at h'
      injection h' with e
      rw [← e]
      exact lessonStep_refl l
  | contributor r now =>
    simp only [step2, postContributor2, findLesson] at h'
    rw [hh] at h'
    injection h' with e
    rw [← e]
    exact lessonStep_refl l

/-- One request preserves nonnegativity of all counters. -/
theorem countersNonneg_step2 (s : Store) (op : Op) (h : countersNonneg s) :
    countersNonneg (step2 s op) := by
  cases op with
  | create r now =>
    intro l hl
    simp only [step2, postLesson2] at hl
    rcases List.mem_append.mp hl with h1 | h2
    · exact h l h1
    · have e := List.mem_singleton.mp h2
      subst e
      simp [lessonCountersOK]
  | view j =>
    intro l hl
    simp only [step2, viewLesson, bumpLesson] at hl
    refine forall_updateFirst _ _ s.lessons h ?_ l hl
    intro x hx
    obtain ⟨h1, h2, h3, h4, h5⟩ := hx
    refine ⟨h1, ?_, h3, h4, h5⟩
    show (0 : Int) ≤ x.views + 1
    omega
  | like j =>
    intro l hl
    simp only [step2, likeLesson, bumpLesson] at hl
    refine forall_updateFirst _ _ s.lessons h ?_ l hl
    intro x hx
    obtain ⟨h1, h2, h3, h4, h5⟩ := hx
    refine ⟨?_, h2, h3, h4, h5⟩
    show (0 : Int) ≤ x.likes + 1
    omega
  | save j =>
    intro l hl
    simp only [step2, saveLesson, bumpLesson] at hl
    refine forall_updateFirst _ _ s.lessons h ?_ l hl
    intro x hx
    obtain ⟨h1, h2, h3, h4, h5⟩ := hx
    refine ⟨h1, h2, ?_, h4, h5⟩
    show (0 : Int) ≤ x.saves + 1
    omega
  | share j =>
    intro l hl
    simp only [step2, shareLesson, bumpLesson] at hl
    refine forall_updateFirst _ _ s.lessons h ?_ l hl
    intro x hx
    obtain ⟨h1, h2, h3, h4, h5⟩ := hx
    refine ⟨h1, h2, h3, ?_, h5⟩
    show (0 : Int) ≤ (some (x.shares.getD 0 + 1)).getD 0
    simp only [Option.getD_some]
    omega
  | comment j t u now =>
    by_cases hft : textFalsy t = true
    · simp only [step2, addComment, hft, if_true]
      exact h
    · have hft' : textFalsy t = false := by
        revert hft; cases textFalsy t <;> simp
      intro l hl
      simp only [step2, addComment, hft', Bool.false_eq_true, if_false] at hl
      refine forall_updateFirst _ _ s.lessons h ?_ l hl
      intro x hx
      obtain ⟨h1, h2, h3, h4, h5⟩ := hx
      refine ⟨h1, h2, h3, h4, ?_⟩
      intro c hc
      rcases List.mem_append.mp hc with hc1 | hc2
      · exact h5 c hc1
      · have e := List.mem_singleton.mp hc2
        subst e
        exact le_refl 0
  | reply j cid t u now =>
    by_cases hft : textFalsy t = true
    · simp only [step2, addReply, hft, if_true]
      exact h
    · have hft' : textFalsy t = false := by
        revert hft; cases textFalsy t <;> simp
      intro l hl
      simp only [step2, addReply, hft', Bool.false_eq_true, if_false] at hl
      refine forall_updateFirst _ _ s.lessons h ?_ l hl
      intro x hx
      obtain ⟨h1, h2, h3, h4, h5⟩ := hx
      refine ⟨h1, h2, h3, h4, ?_⟩
      refine forall_updateFirst _ _ x.comments h5 ?_
      intro y hy
      exact hy
  | commentLike j cid =>
    intro l hl
    simp only [step2, likeComment] at hl
    refine forall_updateFirst _ _ s.lessons h ?_ l hl
    intro x hx
    obtain ⟨h1, h2, h3, h4, h5⟩ := hx
    refine ⟨h1, h2, h3, h4, ?_⟩
    refine forall_updateFirst _ _ x.comments h5 ?_
    intro y hy
    show (0 : Int) ≤ y.likes + 1
    omega
  | update j t c im now =>
    by_cases hany : s.lessons.any (fun x => x.lid == j) = true
    · intro l hl
      simp only [step2, putLesson, if_pos hany] at hl
      refine forall_updateFirst _ _ s.lessons h ?_ l hl
      intro x hx
      obtain ⟨h1, h2, h3, h4, h5⟩ := hx
      exact ⟨h1, h2, h3, h4, h5⟩
    · intro l hl
      simp only [step2, putLesson, if_neg hany] at hl
      exact h l hl
  | remove j =>
    by_cases hany : s.lessons.any (fun x => x.lid == j) = true
    · intro l hl
      simp only [step2, deleteLesson, if_pos hany] at hl
      exact forall_removeFirst _ s.lessons h l hl
    · intro l hl
      simp only [step2, deleteLesson, if_neg hany] at hl
      exact h l hl
  | contributor r now =>
    intro l hl
    simp only [step2, postContributor2] at hl
    exact h l hl

/-- Claim C9 (amended): for the part_002 revision — whose creation
initializes all four counters — every reachable store has only nonnegative
counters, creation starts every counter of the new document at 0 (leaving
other documents' counters untouched), and every operation changes each
counter of a surviving lesson by 0 or exactly +1, never decrementing.  In the
index.js revision the creation request body's `shares` value is persisted
as-is, so a client can create a lesson whose shares counter is negative (see
the counterexample). -/
theorem counters_monotone_amended :
    (∀ s, Reachable2 s → countersNonneg s) ∧
    (∀ s r now, (postLesson2 s r now).1.lessons.map counterVals
      = s.lessons.map counterVals ++ [(0, 0, 0, 0)]) ∧
    (∀ s op i l l', (s.lessons.map Lesson.lid).Nodup →
      findLesson s i = some l → findLesson (step2 s op) i = some l' →
      lessonStep l l') := by
  refine ⟨?_, ?_, ?_⟩
  · intro s hs
    induction hs with
    | init => intro l hl; cases hl
    | step op hr ih => exact countersNonneg_step2 _ op ih
  · intro s r now
    simp [postLesson2, counterVals]
  · intro s op i l l' hn h h'
    exact lessonStep_step2 s op i l l' hn h h'

/-- Claim C9 counterexample: in the index.js revision a single creation
request with `shares = -5` in the body reaches a store holding a lesson with
a negative counter — the claim says no reachable store ever has one. -/
theorem counters_negative_shares_at_creation :
    ¬ countersNonneg (postLesson emptyStore { shares := some (-5) } 0).1 := by
  intro h
  have hmem : ({ lid := 0, shares := some (-5), createdAt := 0 } : Lesson)
      ∈ (postLesson emptyStore { shares := some (-5) } 0).1.lessons := by
    decide
  have h4 := (h _ hmem).2.2.2.1
  simp only [Option.getD_some] at h4
  omega

theorem counters_monotone_witness :
    countersNonneg (step2 emptyStore (Op.create {} 0)) ∧
    lessonStep { lid := 0 } { lid := 0, likes := 1 } :=
  ⟨counters_monotone_amended.1 _
     (Reachable2.step (Op.create {} 0) Reachable2.init),
   counters_monotone_amended.2.2 oneLessonStore (Op.like 0) 0 { lid := 0 }
     { lid := 0, likes := 1 } (by decide) rfl rfl⟩

end LifeLessons
